import Mathlib

/-!
Verification of the mvcproject blog application: a shallow embedding of the
Express/SQLite server (`src/app.js`) and of the client cache layer
(`src/public/js/model.js`), with theorems settling the specified claims.

Conventions of the embedding:
* JS strings are Lean `String`s; `String.prototype.trim` is `jsTrim`.
* `datetime('now')` timestamps are `Nat` clock values passed to each
  mutating handler; SQLite's TEXT datetimes compare chronologically, which
  the `Nat` order mirrors.
* A request-body field that may be `undefined` is an `Option String`.
* `Number(req.params.id)` followed by `Number.isFinite` is modelled by a
  `ParsedId := Option Int`: `none` stands for a parameter whose `Number(...)`
  conversion is not finite (`NaN`, `±Infinity`).
* The SQLite storage engine is assumed healthy: the `err` branches of the
  `db.run`/`db.get`/`db.all` callbacks (HTTP 500) are not modelled.
-/

/-- Whitespace characters removed by JavaScript `String.prototype.trim`
(ASCII whitespace plus NBSP and BOM; other Unicode space separators do not
occur in this development). -/
def isJsWhitespace (c : Char) : Bool :=
  c = ' ' || c = '\t' || c = '\n' || c = '\r' ||
  c.toNat = 0x0b || c.toNat = 0x0c || c.toNat = 0xa0 || c.toNat = 0xfeff

/-- `String.prototype.trim` on the underlying character list: drop leading
and trailing whitespace. -/
def jsTrimList (l : List Char) : List Char :=
  (((l.dropWhile isJsWhitespace).reverse).dropWhile isJsWhitespace).reverse

/-- JavaScript `String.prototype.trim`. -/
def jsTrim (s : String) : String :=
  ⟨jsTrimList s.data⟩

/-- A request body `{title, content}`; `none` models an absent field. -/
structure PostData where
  title : Option String
  content : Option String
deriving Repr, DecidableEq

/-- `Number(req.params.id)` result: `none` when not a finite number. -/
abbrev ParsedId := Option Int

/-- A row of the `posts` table (`id INTEGER PRIMARY KEY AUTOINCREMENT`,
`title`, `content`, `created_at`, `updated_at`). -/
structure Row where
  id : Int
  title : String
  content : String
  created_at : Nat
  updated_at : Nat
deriving Repr, DecidableEq

/-- The `posts` table: rows in insertion order plus the AUTOINCREMENT
counter, which SQLite never decreases (ids are never reused). -/
structure Store where
  rows : List Row
  nextId : Int
deriving Repr, DecidableEq

def emptyStore : Store := { rows := [], nextId := 1 }

/-- `SELECT * FROM posts WHERE id = ?` via `db.get`: first matching row. -/
def dbGet (s : Store) (id : Int) : Option Row :=
  s.rows.find? (fun r => r.id == id)

/-- `INSERT INTO posts (title, content) VALUES (?, ?)`: the schema defaults
set `created_at` and `updated_at` to `datetime('now')` of the same
statement, hence to the same value. Returns the new store and `lastID`. -/
def dbInsert (s : Store) (t c : String) (now : Nat) : Store × Int :=
  ({ rows := s.rows ++ [{ id := s.nextId, title := t, content := c,
                          created_at := now, updated_at := now }],
     nextId := s.nextId + 1 }, s.nextId)

/-- `UPDATE posts SET title = ?, content = ?, updated_at = datetime('now')
WHERE id = ?`: returns the new store and `this.changes`. -/
def dbUpdate (s : Store) (id : Int) (t c : String) (now : Nat) :
    Store × Nat :=
  ({ rows := s.rows.map (fun r =>
      if r.id == id then
        { r with title := t, content := c, updated_at := now }
      else r),
     nextId := s.nextId },
   (s.rows.filter (fun r => r.id == id)).length)

/-- `DELETE FROM posts WHERE id = ?`: returns the new store and
`this.changes`. The AUTOINCREMENT counter is untouched. -/
def dbDelete (s : Store) (id : Int) : Store × Nat :=
  ({ rows := s.rows.filter (fun r => !(r.id == id)), nextId := s.nextId },
   (s.rows.filter (fun r => r.id == id)).length)

/-- Insertion step of `ORDER BY id DESC`. -/
def insertDescById (r : Row) : List Row → List Row
  | [] => [r]
  | x :: xs => if x.id ≤ r.id then r :: x :: xs else x :: insertDescById r xs

/-- `SELECT * FROM posts ORDER BY id DESC` sorting. -/
def sortByIdDesc : List Row → List Row
  | [] => []
  | x :: xs => insertDescById x (sortByIdDesc xs)

/-- `GET /api/posts` (`db.all` with `ORDER BY id DESC`); always responds
200 with the array of rows. -/
def handleListPosts (s : Store) : List Row :=
  sortByIdDesc s.rows

/-- Responses of `GET /api/posts/:id`. -/
inductive GetResult
  | invalidId            -- 400 {error: 'Invalid id'}
  | notFound             -- 404 {error: 'Not found'}
  | ok (row : Row)       -- 200, the row
deriving Repr, DecidableEq

/-- `GET /api/posts/:id`: finite-id check, then lookup. -/
def handleGetPost (s : Store) (idp : ParsedId) : GetResult :=
  match idp with
  | none => .invalidId
  | some id =>
    match dbGet s id with
    | none => .notFound
    | some row => .ok row

/-- `!field?.trim()`: the field is absent, or empty after trimming. -/
def serverFieldMissing (f : Option String) : Bool :=
  match f with
  | none => true
  | some t => jsTrim t == ""

/-- Responses of `POST /api/posts`. -/
inductive CreateResult
  | badRequest           -- 400 {error: 'Title and content required'}
  | created (row : Option Row)  -- 201, the row re-read by lastID
deriving Repr, DecidableEq

/-- `POST /api/posts`: reject when either field is missing/empty after
trim; otherwise insert the trimmed values and respond with the row
re-read from the store by `this.lastID`. -/
def handleCreatePost (s : Store) (body : PostData) (now : Nat) :
    CreateResult × Store :=
  if serverFieldMissing body.title || serverFieldMissing body.content then
    (.badRequest, s)
  else
    let p := dbInsert s (jsTrim (body.title.getD ""))
                        (jsTrim (body.content.getD "")) now
    (.created (dbGet p.1 p.2), p.1)

/-- Responses of `PUT /api/posts/:id`. -/
inductive UpdateResult
  | invalidId            -- 400 {error: 'Invalid id'}
  | badRequest           -- 400 {error: 'Title and content required'}
  | notFound             -- 404 {error: 'Not found'}
  | ok (row : Option Row)       -- 200, the row re-read after the update
deriving Repr, DecidableEq

/-- `PUT /api/posts/:id`: finite-id check first, then payload check, then
the UPDATE; `this.changes = 0` yields 404, else the row is re-read. -/
def handleUpdatePost (s : Store) (idp : ParsedId) (body : PostData)
    (now : Nat) : UpdateResult × Store :=
  match idp with
  | none => (.invalidId, s)
  | some id =>
    if serverFieldMissing body.title || serverFieldMissing body.content then
      (.badRequest, s)
    else
      let p := dbUpdate s id (jsTrim (body.title.getD ""))
                             (jsTrim (body.content.getD "")) now
      if p.2 == 0 then (.notFound, p.1)
      else (.ok (dbGet p.1 id), p.1)

/-- Responses of `DELETE /api/posts/:id`. -/
inductive DeleteResult
  | invalidId            -- 400 {error: 'Invalid id'}
  | notFound             -- 404 {error: 'Not found'}
  | success              -- 200 {success: true}
deriving Repr, DecidableEq

/-- `DELETE /api/posts/:id`: finite-id check, then the DELETE;
`this.changes = 0` yields 404. -/
def handleDeletePost (s : Store) (idp : ParsedId) : DeleteResult × Store :=
  match idp with
  | none => (.invalidId, s)
  | some id =>
    let p := dbDelete s id
    if p.2 == 0 then (.notFound, p.1)
    else (.success, p.1)

/-! ## Client cache layer (`src/public/js/model.js`, `BlogModel`) -/

/-- The `BlogModel` mutable state that the claims concern: the cached
ordered post sequence and the loading flag. -/
structure ClientState where
  posts : List Row
  isLoading : Bool
deriving Repr, DecidableEq

/-- Events delivered through `notifyObservers`, one constructor per named
callback slot. -/
inductive ClientEvent
  | loadingChange (isLoading : Bool)  -- 'onLoadingChange' (from setLoading)
  | loadingStart                      -- 'onLoadingStart'
  | loadingEnd                        -- 'onLoadingEnd'
  | postsLoaded (posts : List Row)    -- 'onPostsLoaded'
  | postCreated (post : Row)          -- 'onPostCreated'
  | postUpdated (post : Row)          -- 'onPostUpdated'
  | postDeleted (id : Int)            -- 'onPostDeleted'
  | errorEvent (message : String)     -- 'onError'
deriving Repr, DecidableEq

/-- Outcome of a `fetch` round trip whose success body is an `α`.
`httpError status errorBody` models `!response.ok`; `errorBody` is the
`error` field of the JSON error body when present and truthy, `none` when
the body is unparseable or the field is falsy. -/
inductive Fetch (α : Type)
  | ok (value : α)
  | httpError (status : Nat) (errorBody : Option String)
deriving Repr, DecidableEq

/-- `BlogModel.validatePostData`: human-readable errors; title
missing/empty or shorter than 3 after trim, content missing/empty or
shorter than 10 after trim. -/
def validatePostData (pd : PostData) : List String :=
  let titleErrors :=
    match pd.title with
    | none => ["Title is required"]
    | some t =>
      if (jsTrim t).length == 0 then ["Title is required"]
      else if (jsTrim t).length < 3 then
        ["Title must be at least 3 characters long"]
      else []
  let contentErrors :=
    match pd.content with
    | none => ["Content is required"]
    | some c =>
      if (jsTrim c).length == 0 then ["Content is required"]
      else if (jsTrim c).length < 10 then
        ["Content must be at least 10 characters long"]
      else []
  titleErrors ++ contentErrors

/-- The error message thrown on a non-ok response: the parsed body's
`error` field when available, else the operation's generic
`Failed to ... (HTTP <status>)` string. -/
def fetchFailMsg (generic : String) (status : Nat) (errorBody : Option String) :
    String :=
  errorBody.getD (generic ++ " (HTTP " ++ toString status ++ ")")

/-- `BlogModel.loadPosts`: set loading and emit start; on ok replace the
cache and emit `onPostsLoaded`; on failure emit `onError`; finally clear
loading and emit `onLoadingEnd`. Returns the posts or re-raises. -/
def clientLoadPosts (st : ClientState) (resp : Fetch (List Row)) :
    ClientState × List ClientEvent × Except String (List Row) :=
  match resp with
  | .ok ps =>
    ({ posts := ps, isLoading := false },
     [.loadingChange true, .loadingStart, .postsLoaded ps,
      .loadingChange false, .loadingEnd],
     .ok ps)
  | .httpError status _ =>
    let msg := "Failed to load posts (HTTP " ++ toString status ++ ")"
    ({ st with isLoading := false },
     [.loadingChange true, .loadingStart, .errorEvent msg,
      .loadingChange false, .loadingEnd],
     .error msg)

/-- `BlogModel.createPost`: set loading; local validation short-circuits
before the network call; on ok `unshift` the new post and emit
`onPostCreated`; on failure emit `onError`; finally clear loading. -/
def clientCreatePost (st : ClientState) (pd : PostData) (resp : Fetch Row) :
    ClientState × List ClientEvent × Except String Row :=
  let errs := validatePostData pd
  if errs.isEmpty then
    match resp with
    | .ok newPost =>
      ({ posts := newPost :: st.posts, isLoading := false },
       [.loadingChange true, .postCreated newPost, .loadingChange false],
       .ok newPost)
    | .httpError status body =>
      let msg := fetchFailMsg "Failed to create post" status body
      ({ st with isLoading := false },
       [.loadingChange true, .errorEvent msg, .loadingChange false],
       .error msg)
  else
    let msg := String.intercalate ". " errs
    ({ st with isLoading := false },
     [.loadingChange true, .errorEvent msg, .loadingChange false],
     .error msg)

/-- Cache replacement of `updatePost`: `findIndex` on `Number(p.id) === id`
and in-place assignment when found. -/
def replaceFirstById (posts : List Row) (id : Int) (newPost : Row) :
    List Row :=
  match posts.findIdx? (fun p => p.id == id) with
  | some idx => posts.set idx newPost
  | none => posts

/-- `BlogModel.updatePost`: set loading; finite-id check, then local
validation, then the network call; on ok replace the first cached post
with that id (if any) and emit `onPostUpdated`; on failure emit `onError`;
finally clear loading. -/
def clientUpdatePost (st : ClientState) (postId : ParsedId) (pd : PostData)
    (resp : Fetch Row) : ClientState × List ClientEvent × Except String Row :=
  match postId with
  | none =>
    ({ st with isLoading := false },
     [.loadingChange true, .errorEvent "Invalid post id",
      .loadingChange false],
     .error "Invalid post id")
  | some id =>
    let errs := validatePostData pd
    if errs.isEmpty then
      match resp with
      | .ok updatedPost =>
        ({ posts := replaceFirstById st.posts id updatedPost,
           isLoading := false },
         [.loadingChange true, .postUpdated updatedPost,
          .loadingChange false],
         .ok updatedPost)
      | .httpError status body =>
        let msg := fetchFailMsg "Failed to update post" status body
        ({ st with isLoading := false },
         [.loadingChange true, .errorEvent msg, .loadingChange false],
         .error msg)
    else
      let msg := String.intercalate ". " errs
      ({ st with isLoading := false },
       [.loadingChange true, .errorEvent msg, .loadingChange false],
       .error msg)

/-- Outcome of the DELETE `fetch`: no body is read on success. -/
inductive DeleteFetch
  | ok
  | httpError (status : Nat) (errorBody : Option String)
deriving Repr, DecidableEq

/-- `BlogModel.deletePost`: set loading; finite-id check, then the network
call (a non-ok response with status 204 is still treated as success); on
success filter every cached post with that id out and emit `onPostDeleted`
with the numeric id; on failure emit `onError`; finally clear loading. -/
def clientDeletePost (st : ClientState) (postId : ParsedId)
    (resp : DeleteFetch) : ClientState × List ClientEvent × Except String Bool :=
  match postId with
  | none =>
    ({ st with isLoading := false },
     [.loadingChange true, .errorEvent "Invalid post id",
      .loadingChange false],
     .error "Invalid post id")
  | some id =>
    let success :=
      ({ posts := st.posts.filter (fun p => !(p.id == id)),
         isLoading := false },
       [ClientEvent.loadingChange true, .postDeleted id,
        .loadingChange false],
       Except.ok (ε := String) true)
    match resp with
    | .ok => success
    | .httpError status body =>
      if status == 204 then success
      else
        let msg := fetchFailMsg "Failed to delete post" status body
        ({ st with isLoading := false },
         [.loadingChange true, .errorEvent msg, .loadingChange false],
         .error msg)

/-- `BlogModel.getPostById`: `find` on `Number(post.id) === id`. -/
def getPostById (st : ClientState) (postId : ParsedId) : Option Row :=
  match postId with
  | none => none
  | some id => st.posts.find? (fun p => p.id == id)

/-! ## Traces of mutating operations and store invariants -/

/-- A mutating request against the server, with the `datetime('now')`
value the storage engine would observe while executing it. -/
inductive Op
  | create (body : PostData) (now : Nat)
  | update (idp : ParsedId) (body : PostData) (now : Nat)
  | delete (idp : ParsedId)
deriving Repr

/-- The clock value an operation stamps into rows, when any. -/
def opTime : Op → Option Nat
  | .create _ now => some now
  | .update _ _ now => some now
  | .delete _ => none

/-- State change of one request (the response is discarded). -/
def applyOp (s : Store) : Op → Store
  | .create body now => (handleCreatePost s body now).2
  | .update idp body now => (handleUpdatePost s idp body now).2
  | .delete idp => (handleDeletePost s idp).2

/-- Replay a request sequence. -/
def applyOps (s : Store) (ops : List Op) : Store :=
  ops.foldl applyOp s

/-- Replay a sequence of create requests only. -/
def applyCreates (s : Store) (inputs : List (PostData × Nat)) : Store :=
  inputs.foldl (fun s i => (handleCreatePost s i.1 i.2).2) s

/-- Structural invariant of the table: row ids strictly increase in
insertion order and stay below the AUTOINCREMENT counter. -/
def StoreWF (s : Store) : Prop :=
  s.rows.Pairwise (fun a b => a.id < b.id) ∧ ∀ r ∈ s.rows, r.id < s.nextId

/-- Timestamp invariant relative to the current clock `clk`. -/
def TimeWF (s : Store) (clk : Nat) : Prop :=
  ∀ r ∈ s.rows, r.created_at ≤ r.updated_at ∧ r.updated_at ≤ clk

/-- The operation times of a trace never go backwards, starting from
clock `clk`. -/
def Chron : Nat → List Op → Prop
  | _, [] => True
  | clk, op :: ops =>
    match opTime op with
    | none => Chron clk ops
    | some t => clk ≤ t ∧ Chron t ops

/-- Clock value after replaying a trace. -/
def endClk : Nat → List Op → Nat
  | clk, [] => clk
  | clk, op :: ops =>
    endClk (match opTime op with | none => clk | some t => t) ops

/-! ## Helper lemmas: trimming -/

theorem dropWhile_self_dropWhile {α : Type} (p : α → Bool) (l : List α) :
    (l.dropWhile p).dropWhile p = l.dropWhile p := by
  induction l with
  | nil => rfl
  | cons a l ih =>
    by_cases h : p a
    · simp [List.dropWhile_cons, h, ih]
    · simp [List.dropWhile_cons, h]

theorem dropWhile_head?_not {α : Type} (p : α → Bool) (l : List α) {a : α}
    (h : (l.dropWhile p).head? = some a) : p a = false := by
  induction l with
  | nil => simp [List.dropWhile] at h
  | cons x l ih =>
    by_cases hp : p x
    · rw [List.dropWhile_cons, if_pos hp] at h
      exact ih h
    · rw [List.dropWhile_cons, if_neg hp] at h
      simp only [List.head?_cons, Option.some.injEq] at h
      subst h
      exact Bool.eq_false_iff.mpr hp

theorem dropWhile_eq_self_of_head? {α : Type} (p : α → Bool) (l : List α)
    (h : ∀ a, l.head? = some a → p a = false) : l.dropWhile p = l := by
  cases l with
  | nil => rfl
  | cons x l =>
    have hx : p x = false := h x rfl
    simp [List.dropWhile_cons, hx]

theorem getLast?_dropWhile {α : Type} (p : α → Bool) :
    ∀ l : List α, l.dropWhile p ≠ [] →
      (l.dropWhile p).getLast? = l.getLast? := by
  intro l
  induction l with
  | nil => intro h; exact absurd rfl h
  | cons x l ih =>
    intro h
    by_cases hp : p x
    · rw [List.dropWhile_cons, if_pos hp] at h ⊢
      have hl : l ≠ [] := by
        intro e
        subst e
        simp [List.dropWhile] at h
      rw [ih h]
      cases l with
      | nil => exact absurd rfl hl
      | cons y ys => rw [List.getLast?_cons_cons]
    · rw [List.dropWhile_cons, if_neg hp]

theorem jsTrimList_head?_not (l : List Char) {a : Char}
    (h : (jsTrimList l).head? = some a) : isJsWhitespace a = false := by
  unfold jsTrimList at h
  rw [List.head?_reverse] at h
  have hne : (((l.dropWhile isJsWhitespace).reverse).dropWhile
      isJsWhitespace) ≠ [] := by
    intro e
    rw [e] at h
    simp at h
  rw [getLast?_dropWhile _ _ hne, List.getLast?_reverse] at h
  exact dropWhile_head?_not _ _ h

theorem jsTrimList_getLast?_not (l : List Char) {a : Char}
    (h : (jsTrimList l).getLast? = some a) : isJsWhitespace a = false := by
  unfold jsTrimList at h
  rw [List.getLast?_reverse] at h
  exact dropWhile_head?_not _ _ h

theorem jsTrimList_idem (l : List Char) :
    jsTrimList (jsTrimList l) = jsTrimList l := by
  have h1 : (jsTrimList l).dropWhile isJsWhitespace = jsTrimList l :=
    dropWhile_eq_self_of_head? _ _ (fun a ha => jsTrimList_head?_not l ha)
  have h2 : ((jsTrimList l).reverse).dropWhile isJsWhitespace =
      (jsTrimList l).reverse := by
    refine dropWhile_eq_self_of_head? _ _ (fun a ha => ?_)
    rw [List.head?_reverse] at ha
    exact jsTrimList_getLast?_not l ha
  calc jsTrimList (jsTrimList l)
      = (((jsTrimList l).dropWhile isJsWhitespace).reverse.dropWhile
          isJsWhitespace).reverse := rfl
    _ = ((jsTrimList l).reverse.dropWhile isJsWhitespace).reverse := by
          rw [h1]
    _ = ((jsTrimList l).reverse).reverse := by rw [h2]
    _ = jsTrimList l := List.reverse_reverse _

theorem jsTrim_idem (s : String) : jsTrim (jsTrim s) = jsTrim s := by
  unfold jsTrim
  exact congrArg String.mk (jsTrimList_idem s.data)

/-! ## Helper lemmas: `ORDER BY id DESC` -/

theorem insertDescById_perm (r : Row) (l : List Row) :
    (insertDescById r l).Perm (r :: l) := by
  induction l with
  | nil => exact List.Perm.refl _
  | cons x xs ih =>
    by_cases h : x.id ≤ r.id
    · simp only [insertDescById, if_pos h]
      exact List.Perm.refl _
    · simp only [insertDescById, if_neg h]
      exact (ih.cons x).trans (List.Perm.swap r x xs)

theorem sortByIdDesc_perm : ∀ l : List Row, (sortByIdDesc l).Perm l := by
  intro l
  induction l with
  | nil => exact List.Perm.refl _
  | cons x xs ih =>
    exact (insertDescById_perm x (sortByIdDesc xs)).trans (ih.cons x)

theorem insertDescById_pairwise (r : Row) (l : List Row)
    (h : l.Pairwise (fun a b => b.id ≤ a.id)) :
    (insertDescById r l).Pairwise (fun a b => b.id ≤ a.id) := by
  induction l with
  | nil => simp [insertDescById]
  | cons x xs ih =>
    rcases List.pairwise_cons.mp h with ⟨hx, hxs⟩
    by_cases hle : x.id ≤ r.id
    · simp only [insertDescById, if_pos hle]
      refine List.pairwise_cons.mpr ⟨?_, h⟩
      intro b hb
      rcases List.mem_cons.mp hb with rfl | hb
      · exact hle
      · exact le_trans (hx b hb) hle
    · simp only [insertDescById, if_neg hle]
      refine List.pairwise_cons.mpr ⟨?_, ih hxs⟩
      intro b hb
      have hb' : b ∈ r :: xs :=
        (insertDescById_perm r xs).mem_iff.mp hb
      rcases List.mem_cons.mp hb' with rfl | hb'
      · exact le_of_lt (lt_of_not_le hle)
      · exact hx b hb'

theorem sortByIdDesc_pairwise (l : List Row) :
    (sortByIdDesc l).Pairwise (fun a b => b.id ≤ a.id) := by
  induction l with
  | nil => simp [sortByIdDesc]
  | cons x xs ih => exact insertDescById_pairwise x _ ih

theorem sortByIdDesc_strict (l : List Row)
    (hne : l.Pairwise (fun a b => a.id ≠ b.id)) :
    (sortByIdDesc l).Pairwise (fun a b => b.id < a.id) := by
  have hperm := sortByIdDesc_perm l
  have hne' : (sortByIdDesc l).Pairwise (fun a b => a.id ≠ b.id) :=
    (hperm.pairwise_iff (fun h => Ne.symm h)).mpr hne
  exact ((sortByIdDesc_pairwise l).and hne').imp
    (fun h => lt_of_le_of_ne h.1 (fun e => h.2 e.symm))

/-! ## Helper lemmas: store invariants -/

theorem storeWF_empty : StoreWF emptyStore := by
  constructor
  · simp [emptyStore]
  · intro r hr
    simp [emptyStore] at hr

theorem updRow_id (id : Int) (t c : String) (now : Nat) (a : Row) :
    (if a.id == id then
      { a with title := t, content := c, updated_at := now } else a).id
    = a.id := by
  split <;> rfl

theorem storeWF_dbInsert (s : Store) (t c : String) (now : Nat)
    (h : StoreWF s) : StoreWF (dbInsert s t c now).1 := by
  obtain ⟨hp, hb⟩ := h
  refine ⟨?_, ?_⟩
  · show (s.rows ++ [_]).Pairwise _
    rw [List.pairwise_append]
    refine ⟨hp, List.pairwise_singleton _ _, ?_⟩
    intro a ha b hb'
    rw [List.mem_singleton.mp hb']
    exact hb a ha
  · intro r hr
    rcases List.mem_append.mp hr with hr | hr
    · exact lt_trans (hb r hr) (lt_add_one _)
    · rw [List.mem_singleton.mp hr]
      exact lt_add_one _

theorem storeWF_dbUpdate (s : Store) (id : Int) (t c : String) (now : Nat)
    (h : StoreWF s) : StoreWF (dbUpdate s id t c now).1 := by
  obtain ⟨hp, hb⟩ := h
  refine ⟨?_, ?_⟩
  · show (s.rows.map _).Pairwise _
    rw [List.pairwise_map]
    refine hp.imp ?_
    intro a b hab
    rw [updRow_id, updRow_id]
    exact hab
  · intro r hr
    rcases List.mem_map.mp hr with ⟨a, ha, rfl⟩
    rw [updRow_id]
    exact hb a ha

theorem storeWF_dbDelete (s : Store) (id : Int) (h : StoreWF s) :
    StoreWF (dbDelete s id).1 :=
  ⟨List.Pairwise.sublist (List.filter_sublist _) h.1,
   fun r hr => h.2 r (List.mem_filter.mp hr).1⟩

theorem storeWF_handleCreatePost (s : Store) (body : PostData) (now : Nat)
    (h : StoreWF s) : StoreWF (handleCreatePost s body now).2 := by
  unfold handleCreatePost
  split
  · exact h
  · exact storeWF_dbInsert s _ _ now h

theorem storeWF_handleUpdatePost (s : Store) (idp : ParsedId)
    (body : PostData) (now : Nat) (h : StoreWF s) :
    StoreWF (handleUpdatePost s idp body now).2 := by
  rcases idp with _ | id
  · exact h
  · show StoreWF (if serverFieldMissing body.title ||
        serverFieldMissing body.content then (UpdateResult.badRequest, s)
      else
        let p := dbUpdate s id (jsTrim (body.title.getD ""))
                              (jsTrim (body.content.getD "")) now
        if p.2 == 0 then (UpdateResult.notFound, p.1)
        else (UpdateResult.ok (dbGet p.1 id), p.1)).2
    split
    · exact h
    · dsimp only
      split
      · exact storeWF_dbUpdate s id _ _ now h
      · exact storeWF_dbUpdate s id _ _ now h

theorem storeWF_handleDeletePost (s : Store) (idp : ParsedId)
    (h : StoreWF s) : StoreWF (handleDeletePost s idp).2 := by
  rcases idp with _ | id
  · exact h
  · show StoreWF (let p := dbDelete s id
      if p.2 == 0 then (DeleteResult.notFound, p.1)
      else (DeleteResult.success, p.1)).2
    dsimp only
    split
    · exact storeWF_dbDelete s id h
    · exact storeWF_dbDelete s id h

theorem storeWF_applyOp (s : Store) (op : Op) (h : StoreWF s) :
    StoreWF (applyOp s op) := by
  cases op with
  | create body now => exact storeWF_handleCreatePost s body now h
  | update idp body now => exact storeWF_handleUpdatePost s idp body now h
  | delete idp => exact storeWF_handleDeletePost s idp h

theorem storeWF_applyOps (ops : List Op) :
    ∀ s : Store, StoreWF s → StoreWF (applyOps s ops) := by
  induction ops with
  | nil => intro s h; exact h
  | cons op ops ih =>
    intro s h
    exact ih (applyOp s op) (storeWF_applyOp s op h)

theorem storeWF_applyCreates (inputs : List (PostData × Nat)) :
    ∀ s : Store, StoreWF s → StoreWF (applyCreates s inputs) := by
  induction inputs with
  | nil => intro s h; exact h
  | cons i inputs ih =>
    intro s h
    exact ih _ (storeWF_handleCreatePost s i.1 i.2 h)

theorem nextId_applyOp (s : Store) (op : Op) :
    s.nextId ≤ (applyOp s op).nextId := by
  cases op with
  | create body now =>
    show s.nextId ≤ (handleCreatePost s body now).2.nextId
    unfold handleCreatePost
    split
    · exact le_refl _
    · exact le_of_lt (lt_add_one _)
  | update idp body now =>
    show s.nextId ≤ (handleUpdatePost s idp body now).2.nextId
    rcases idp with _ | id
    · exact le_refl _
    · show s.nextId ≤ (if serverFieldMissing body.title ||
          serverFieldMissing body.content then (UpdateResult.badRequest, s)
        else
          let p := dbUpdate s id (jsTrim (body.title.getD ""))
                                (jsTrim (body.content.getD "")) now
          if p.2 == 0 then (UpdateResult.notFound, p.1)
          else (UpdateResult.ok (dbGet p.1 id), p.1)).2.nextId
      split
      · exact le_refl _
      · dsimp only
        split <;> exact le_refl _
  | delete idp =>
    show s.nextId ≤ (handleDeletePost s idp).2.nextId
    rcases idp with _ | id
    · exact le_refl _
    · show s.nextId ≤ (let p := dbDelete s id
        if p.2 == 0 then (DeleteResult.notFound, p.1)
        else (DeleteResult.success, p.1)).2.nextId
      dsimp only
      split <;> exact le_refl _

theorem nextId_applyOps (ops : List Op) :
    ∀ s : Store, s.nextId ≤ (applyOps s ops).nextId := by
  induction ops with
  | nil => intro s; exact le_refl _
  | cons op ops ih =>
    intro s
    exact le_trans (nextId_applyOp s op) (ih (applyOp s op))

/-! ## Helper lemmas: db primitives -/

theorem dbGet_insert (s : Store) (t c : String) (now : Nat)
    (hb : ∀ r ∈ s.rows, r.id < s.nextId) :
    dbGet (dbInsert s t c now).1 (dbInsert s t c now).2 =
      some { id := s.nextId, title := t, content := c,
             created_at := now, updated_at := now } := by
  show (s.rows ++ [_]).find? (fun r : Row => r.id == s.nextId) = _
  rw [List.find?_append]
  have h1 : s.rows.find? (fun r => r.id == s.nextId) = none := by
    rw [List.find?_eq_none]
    intro r hr
    simp only [beq_iff_eq]
    exact ne_of_lt (hb r hr)
  rw [h1]
  simp [List.find?]

theorem dbUpdate_changes_zero (s : Store) (id : Int) (t c : String)
    (now : Nat) :
    (dbUpdate s id t c now).2 = 0 ↔ ∀ r ∈ s.rows, r.id ≠ id := by
  show (s.rows.filter (fun r => r.id == id)).length = 0 ↔ _
  rw [List.length_eq_zero, List.filter_eq_nil_iff]
  constructor
  · intro h r hr
    simpa using h r hr
  · intro h r hr
    simpa using h r hr

theorem dbUpdate_no_match (s : Store) (id : Int) (t c : String) (now : Nat)
    (h : ∀ r ∈ s.rows, r.id ≠ id) : (dbUpdate s id t c now).1 = s := by
  have hm : s.rows.map (fun r =>
      if r.id == id then
        { r with title := t, content := c, updated_at := now }
      else r) = s.rows := by
    have h2 : s.rows.map (fun r =>
        if r.id == id then
          { r with title := t, content := c, updated_at := now }
        else r) = s.rows.map (fun r => r) := by
      refine List.map_congr_left ?_
      intro a ha
      have hne : (a.id == id) = false := by
        simpa using h a ha
      simp [hne]
    rw [h2]
    simp
  show ({ rows := s.rows.map _, nextId := s.nextId } : Store) = s
  rw [hm]

theorem dbDelete_changes_zero (s : Store) (id : Int) :
    (dbDelete s id).2 = 0 ↔ ∀ r ∈ s.rows, r.id ≠ id := by
  show (s.rows.filter (fun r => r.id == id)).length = 0 ↔ _
  rw [List.length_eq_zero, List.filter_eq_nil_iff]
  constructor
  · intro h r hr
    simpa using h r hr
  · intro h r hr
    simpa using h r hr

theorem dbGet_dbDelete (s : Store) (id : Int) :
    dbGet (dbDelete s id).1 id = none := by
  show ((s.rows.filter _).find? (fun r => r.id == id)) = none
  rw [List.find?_eq_none]
  intro r hr
  have := (List.mem_filter.mp hr).2
  simpa using this

theorem mem_dbDelete (s : Store) (id : Int) (r : Row) :
    r ∈ (dbDelete s id).1.rows ↔ r ∈ s.rows ∧ r.id ≠ id := by
  show r ∈ s.rows.filter _ ↔ _
  rw [List.mem_filter]
  constructor
  · intro ⟨h1, h2⟩
    refine ⟨h1, ?_⟩
    simpa using h2
  · intro ⟨h1, h2⟩
    refine ⟨h1, ?_⟩
    simpa using h2

theorem dbGet_dbUpdate (s : Store) (id : Int) (t c : String) (now : Nat) :
    dbGet (dbUpdate s id t c now).1 id =
      (dbGet s id).map (fun r =>
        if r.id == id then
          { r with title := t, content := c, updated_at := now }
        else r) := by
  show ((s.rows.map _).find? (fun r : Row => r.id == id)) = _
  rw [List.find?_map]
  have hp : ((fun r : Row => r.id == id) ∘ (fun r : Row =>
      if r.id == id then
        { r with title := t, content := c, updated_at := now }
      else r)) = (fun r : Row => r.id == id) := by
    funext r
    simp only [Function.comp_apply, updRow_id]
  rw [hp]
  rfl

theorem dbUpdate_filter_ne (s : Store) (id : Int) (t c : String)
    (now : Nat) :
    (dbUpdate s id t c now).1.rows.filter (fun r => !(r.id == id)) =
      s.rows.filter (fun r => !(r.id == id)) := by
  show (s.rows.map _).filter _ = _
  rw [List.filter_map]
  have hp : ((fun r : Row => !(r.id == id)) ∘ (fun r : Row =>
      if r.id == id then
        { r with title := t, content := c, updated_at := now }
      else r)) = (fun r : Row => !(r.id == id)) := by
    funext r
    simp only [Function.comp_apply, updRow_id]
  rw [hp]
  have h2 : (s.rows.filter (fun r : Row => !(r.id == id))).map (fun r : Row =>
      if r.id == id then
        { r with title := t, content := c, updated_at := now }
      else r) = (s.rows.filter (fun r : Row => !(r.id == id))).map
        (fun r => r) := by
    refine List.map_congr_left ?_
    intro a ha
    have := (List.mem_filter.mp ha).2
    have hne : (a.id == id) = false := by
      simpa using this
    simp [hne]
  rw [h2]
  simp

theorem mem_dbUpdate_ne (s : Store) (id : Int) (t c : String) (now : Nat)
    (r : Row) (hr : r ∈ s.rows) (hne : r.id ≠ id) :
    r ∈ (dbUpdate s id t c now).1.rows := by
  show r ∈ s.rows.map _
  refine List.mem_map.mpr ⟨r, hr, ?_⟩
  have h : (r.id == id) = false := by simpa using hne
  simp [h]

theorem dbUpdate_rows_length (s : Store) (id : Int) (t c : String)
    (now : Nat) :
    (dbUpdate s id t c now).1.rows.length = s.rows.length := by
  show (s.rows.map _).length = _
  simp

/-! ## Claim C1 -/

/-- C1 counterexample: the server itself does not enforce the 3/10-length
boundary. A create whose title is "ab" (length 2 after trimming) is
accepted with 201, not rejected with InvalidArgument/400, and so is an
update with the same title against an existing row. -/
theorem C1_counterexample :
    (jsTrim "ab").length = 2 ∧
    (handleCreatePost emptyStore ⟨some "ab", some "0123456789"⟩ 0).1 ≠
      CreateResult.badRequest ∧
    (handleUpdatePost
        (handleCreatePost emptyStore ⟨some "abc", some "0123456789"⟩ 0).2
        (some 1) ⟨some "ab", some "0123456789"⟩ 1).1 ≠
      UpdateResult.badRequest := by
  decide

/-- C1 (amended): the title-length-3 / content-length-10 boundary is
enforced client-side by `validatePostData`, which both the create and the
update operation run before any network call; the server enforces only
non-emptiness after trimming, with the identical condition for create and
update. -/
theorem C1_amended :
    (∀ t c : String, validatePostData ⟨some t, some c⟩ = [] ↔
      3 ≤ (jsTrim t).length ∧ 10 ≤ (jsTrim c).length) ∧
    (∀ (s : Store) (body : PostData) (now : Nat),
      (handleCreatePost s body now).1 = CreateResult.badRequest ↔
        (serverFieldMissing body.title ||
          serverFieldMissing body.content) = true) ∧
    (∀ (s : Store) (id : Int) (body : PostData) (now : Nat),
      (handleUpdatePost s (some id) body now).1 = UpdateResult.badRequest ↔
        (serverFieldMissing body.title ||
          serverFieldMissing body.content) = true) ∧
    (∀ (st : ClientState) (pd : PostData) (resp : Fetch Row),
      validatePostData pd ≠ [] →
        (clientCreatePost st pd resp).2.2 =
          Except.error (String.intercalate ". " (validatePostData pd)) ∧
        (clientCreatePost st pd resp).1.posts = st.posts) ∧
    (∀ (st : ClientState) (id : Int) (pd : PostData) (resp : Fetch Row),
      validatePostData pd ≠ [] →
        (clientUpdatePost st (some id) pd resp).2.2 =
          Except.error (String.intercalate ". " (validatePostData pd)) ∧
        (clientUpdatePost st (some id) pd resp).1.posts = st.posts) := by
  refine ⟨?_, ?_, ?_, ?_, ?_⟩
  · intro t c
    simp only [validatePostData]
    split_ifs <;> simp_all
  · intro s body now
    by_cases h : (serverFieldMissing body.title ||
        serverFieldMissing body.content) = true
    · simp [handleCreatePost, h]
    · simp [handleCreatePost, h]
  · intro s id body now
    by_cases h : (serverFieldMissing body.title ||
        serverFieldMissing body.content) = true
    · simp [handleUpdatePost, h]
    · by_cases hz : (dbUpdate s id (jsTrim (body.title.getD ""))
          (jsTrim (body.content.getD "")) now).2 == 0
      · simp [handleUpdatePost, h, hz]
      · simp [handleUpdatePost, h, hz]
  · intro st pd resp hv
    have he : (validatePostData pd).isEmpty = false := by
      rw [List.isEmpty_eq_false]
      exact hv
    constructor
    · simp [clientCreatePost, he]
    · simp [clientCreatePost, he]
  · intro st id pd resp hv
    have he : (validatePostData pd).isEmpty = false := by
      rw [List.isEmpty_eq_false]
      exact hv
    constructor
    · simp [clientUpdatePost, he]
    · simp [clientUpdatePost, he]

/-- C1 amended witness: at title "ab" the client-side validation fires
and the create operation fails with the validation message. -/
theorem C1_amended_witness :
    validatePostData ⟨some "ab", some "0123456789"⟩ ≠ [] ∧
    (clientCreatePost ⟨[], false⟩ ⟨some "ab", some "0123456789"⟩
        (Fetch.ok ⟨1, "ab", "0123456789", 0, 0⟩)).2.2 =
      Except.error (String.intercalate ". "
        (validatePostData ⟨some "ab", some "0123456789"⟩)) :=
  ⟨by decide, (C1_amended.2.2.2.1 ⟨[], false⟩ ⟨some "ab", some "0123456789"⟩
    (Fetch.ok ⟨1, "ab", "0123456789", 0, 0⟩) (by decide)).1⟩

/-! ## Claim C2 -/

/-- C2: after any sequence of creates against the empty store, List
(`GET /api/posts`) returns exactly the stored posts (a permutation of the
table, no filtering) in strictly descending id order, and returns the
empty array on the empty store. -/
theorem C2_list_ordering :
    (∀ inputs : List (PostData × Nat),
      (handleListPosts (applyCreates emptyStore inputs)).Perm
        (applyCreates emptyStore inputs).rows ∧
      (handleListPosts (applyCreates emptyStore inputs)).Pairwise
        (fun a b => b.id < a.id)) ∧
    handleListPosts emptyStore = [] := by
  constructor
  · intro inputs
    have hwf := storeWF_applyCreates inputs emptyStore storeWF_empty
    refine ⟨sortByIdDesc_perm _, ?_⟩
    exact sortByIdDesc_strict _ (hwf.1.imp (fun h => ne_of_lt h))
  · rfl

/-! ## Claim C3 -/

/-- C3: for any valid `{title, content}` (non-empty after trim), create
succeeds with a row whose title and content are exactly the trimmed
inputs, the response is the row re-read from the store after insertion,
a get on the returned id yields that same row, and trimming is
idempotent. -/
theorem C3_round_trip :
    (∀ (s : Store) (t c : String) (now : Nat),
      (∀ r ∈ s.rows, r.id < s.nextId) →
      jsTrim t ≠ "" → jsTrim c ≠ "" →
      ∃ row,
        (handleCreatePost s ⟨some t, some c⟩ now).1 =
          CreateResult.created (some row) ∧
        row.title = jsTrim t ∧ row.content = jsTrim c ∧
        (handleCreatePost s ⟨some t, some c⟩ now).1 =
          CreateResult.created
            (dbGet (handleCreatePost s ⟨some t, some c⟩ now).2 row.id) ∧
        handleGetPost (handleCreatePost s ⟨some t, some c⟩ now).2
          (some row.id) = GetResult.ok row) ∧
    (∀ x : String, jsTrim (jsTrim x) = jsTrim x) := by
  constructor
  · intro s t c now hb ht hc
    have hmt : serverFieldMissing (some t) = false := by
      simp only [serverFieldMissing, beq_eq_false_iff_ne, ne_eq]
      exact ht
    have hmc : serverFieldMissing (some c) = false := by
      simp only [serverFieldMissing, beq_eq_false_iff_ne, ne_eq]
      exact hc
    have hcond : (serverFieldMissing (some t) ||
        serverFieldMissing (some c)) = false := by
      rw [hmt, hmc]
      rfl
    have hres : handleCreatePost s ⟨some t, some c⟩ now =
        (CreateResult.created
          (dbGet (dbInsert s (jsTrim t) (jsTrim c) now).1
            (dbInsert s (jsTrim t) (jsTrim c) now).2),
         (dbInsert s (jsTrim t) (jsTrim c) now).1) := by
      unfold handleCreatePost
      rw [hcond]
      rfl
    have hget := dbGet_insert s (jsTrim t) (jsTrim c) now hb
    refine ⟨{ id := s.nextId, title := jsTrim t, content := jsTrim c,
              created_at := now, updated_at := now }, ?_, rfl, rfl, ?_, ?_⟩
    · rw [hres, hget]
    · rw [hres]
      show CreateResult.created _ = CreateResult.created _
      rw [hget]
      exact congrArg CreateResult.created hget.symm
    · rw [hres]
      show handleGetPost (dbInsert s (jsTrim t) (jsTrim c) now).1
        (some s.nextId) = _
      unfold handleGetPost
      rw [show (dbInsert s (jsTrim t) (jsTrim c) now).2 = s.nextId from rfl]
        at hget
      simp only [hget]
  · exact jsTrim_idem

/-- C3 witness: a concrete round trip with title " Hello " and content
"This is a test post". -/
theorem C3_round_trip_witness :
    (∀ r ∈ emptyStore.rows, r.id < emptyStore.nextId) ∧
    jsTrim " Hello " ≠ "" ∧ jsTrim "This is a test post" ≠ "" ∧
    ∃ row,
      (handleCreatePost emptyStore
          ⟨some " Hello ", some "This is a test post"⟩ 0).1 =
        CreateResult.created (some row) ∧
      row.title = jsTrim " Hello " ∧
      row.content = jsTrim "This is a test post" ∧
      (handleCreatePost emptyStore
          ⟨some " Hello ", some "This is a test post"⟩ 0).1 =
        CreateResult.created
          (dbGet (handleCreatePost emptyStore
            ⟨some " Hello ", some "This is a test post"⟩ 0).2 row.id) ∧
      handleGetPost (handleCreatePost emptyStore
          ⟨some " Hello ", some "This is a test post"⟩ 0).2
        (some row.id) = GetResult.ok row :=
  ⟨fun r hr => absurd hr (List.not_mem_nil r), by decide, by decide,
   C3_round_trip.1 emptyStore " Hello " "This is a test post" 0
     (fun r hr => absurd hr (List.not_mem_nil r)) (by decide) (by decide)⟩

/-! ## Claim C4 -/

/-- C4: for Get/Update/Delete the checks run in the order identifier
shape, then payload shape (update only), then existence: a non-finite id
yields InvalidArgument regardless of payload; an update with a missing or
empty payload yields 400 regardless of whether the id exists; only a
well-shaped request on a non-matching id yields NotFound. -/
theorem C4_validation_order :
    (∀ (s : Store) (body : PostData) (now : Nat),
      handleUpdatePost s none body now = (UpdateResult.invalidId, s)) ∧
    (∀ (s : Store) (id : Int) (body : PostData) (now : Nat),
      (serverFieldMissing body.title ||
        serverFieldMissing body.content) = true →
      handleUpdatePost s (some id) body now = (UpdateResult.badRequest, s)) ∧
    (∀ (s : Store) (id : Int) (body : PostData) (now : Nat),
      (serverFieldMissing body.title ||
        serverFieldMissing body.content) = false →
      dbGet s id = none →
      (handleUpdatePost s (some id) body now).1 = UpdateResult.notFound) ∧
    (∀ s : Store, handleDeletePost s none = (DeleteResult.invalidId, s)) ∧
    (∀ (s : Store) (id : Int), dbGet s id = none →
      (handleDeletePost s (some id)).1 = DeleteResult.notFound) ∧
    (∀ s : Store, handleGetPost s none = GetResult.invalidId) ∧
    (∀ (s : Store) (id : Int), dbGet s id = none →
      handleGetPost s (some id) = GetResult.notFound) := by
  have hno_of_get : ∀ (s : Store) (id : Int), dbGet s id = none →
      ∀ r ∈ s.rows, r.id ≠ id := by
    intro s id hget r hr
    rw [dbGet, List.find?_eq_none] at hget
    simpa using hget r hr
  refine ⟨?_, ?_, ?_, ?_, ?_, ?_, ?_⟩
  · intro s body now
    rfl
  · intro s id body now h
    simp [handleUpdatePost, h]
  · intro s id body now hcond hget
    have hz := (dbUpdate_changes_zero s id (jsTrim (body.title.getD ""))
      (jsTrim (body.content.getD "")) now).mpr (hno_of_get s id hget)
    simp [handleUpdatePost, hcond, hz]
  · intro s
    rfl
  · intro s id hget
    have hz := (dbDelete_changes_zero s id).mpr (hno_of_get s id hget)
    simp [handleDeletePost, hz]
  · intro s
    rfl
  · intro s id hget
    simp [handleGetPost, hget]

/-- C4 witness: against the empty store, an update with invalid id and
empty payload fails invalid-id; with valid but nonexistent id 42 and
empty payload it fails 400 (badRequest), not 404; with a valid payload it
fails 404; delete and get on 42 fail 404. -/
theorem C4_validation_order_witness :
    handleUpdatePost emptyStore none ⟨none, none⟩ 0 =
      (UpdateResult.invalidId, emptyStore) ∧
    (serverFieldMissing (none : Option String) ||
      serverFieldMissing (none : Option String)) = true ∧
    handleUpdatePost emptyStore (some 42) ⟨none, none⟩ 0 =
      (UpdateResult.badRequest, emptyStore) ∧
    dbGet emptyStore 42 = none ∧
    (handleUpdatePost emptyStore (some 42)
      ⟨some "abc", some "0123456789"⟩ 0).1 = UpdateResult.notFound ∧
    (handleDeletePost emptyStore (some 42)).1 = DeleteResult.notFound ∧
    handleGetPost emptyStore (some 42) = GetResult.notFound :=
  ⟨C4_validation_order.1 emptyStore ⟨none, none⟩ 0,
   by decide,
   C4_validation_order.2.1 emptyStore 42 ⟨none, none⟩ 0 (by decide),
   by decide,
   C4_validation_order.2.2.1 emptyStore 42 ⟨some "abc", some "0123456789"⟩ 0
     (by decide) (by decide),
   C4_validation_order.2.2.2.2.1 emptyStore 42 (by decide),
   C4_validation_order.2.2.2.2.2.2 emptyStore 42 (by decide)⟩

/-! ## Claim C5 -/

theorem dbGet_none_iff (s : Store) (id : Int) :
    dbGet s id = none ↔ ∀ r ∈ s.rows, r.id ≠ id := by
  rw [dbGet, List.find?_eq_none]
  constructor <;> intro h r hr <;> simpa using h r hr

/-- C5: a successful update rewrites only title, content and updated_at
of the matching row, keeps its id and created_at, keeps the counter and
every other row (and the row count) unchanged, and returns the row
re-read from the store; an update matching no row returns NotFound and
leaves the store exactly as it was. -/
theorem C5_update_frame :
    (∀ (s : Store) (id : Int) (t c : String) (now : Nat) (r₀ : Row),
      dbGet s id = some r₀ →
      jsTrim t ≠ "" → jsTrim c ≠ "" →
      ∃ r',
        (handleUpdatePost s (some id) ⟨some t, some c⟩ now).1 =
          UpdateResult.ok (some r') ∧
        r'.id = r₀.id ∧ r'.created_at = r₀.created_at ∧
        r'.title = jsTrim t ∧ r'.content = jsTrim c ∧
        r'.updated_at = now ∧
        (handleUpdatePost s (some id) ⟨some t, some c⟩ now).2.nextId =
          s.nextId ∧
        (handleUpdatePost s (some id) ⟨some t, some c⟩ now).2.rows.length =
          s.rows.length ∧
        (handleUpdatePost s (some id) ⟨some t, some c⟩ now).2.rows.filter
            (fun r => !(r.id == id)) =
          s.rows.filter (fun r => !(r.id == id)) ∧
        (handleUpdatePost s (some id) ⟨some t, some c⟩ now).1 =
          UpdateResult.ok
            (dbGet (handleUpdatePost s (some id) ⟨some t, some c⟩ now).2
              id)) ∧
    (∀ (s : Store) (id : Int) (body : PostData) (now : Nat),
      (serverFieldMissing body.title ||
        serverFieldMissing body.content) = false →
      dbGet s id = none →
      handleUpdatePost s (some id) body now = (UpdateResult.notFound, s))
    := by
  constructor
  · intro s id t c now r₀ hget ht hc
    have hfind : s.rows.find? (fun r : Row => r.id == id) = some r₀ := hget
    have hmem : r₀ ∈ s.rows := List.mem_of_find?_eq_some hfind
    have hpred := List.find?_some hfind
    have hid : r₀.id = id := by simpa using hpred
    have hpred' : (r₀.id == id) = true := by simpa using hpred
    have hmt : serverFieldMissing (some t) = false := by
      simp only [serverFieldMissing, beq_eq_false_iff_ne, ne_eq]
      exact ht
    have hmc : serverFieldMissing (some c) = false := by
      simp only [serverFieldMissing, beq_eq_false_iff_ne, ne_eq]
      exact hc
    have hcond : (serverFieldMissing (some t) ||
        serverFieldMissing (some c)) = false := by
      rw [hmt, hmc]
      rfl
    have hz : ¬((dbUpdate s id (jsTrim t) (jsTrim c) now).2 = 0) := by
      rw [dbUpdate_changes_zero]
      intro hall
      exact hall r₀ hmem hid
    have hzb : ((dbUpdate s id (jsTrim t) (jsTrim c) now).2 == 0) = false :=
      by simpa using hz
    have hres : handleUpdatePost s (some id) ⟨some t, some c⟩ now =
        (UpdateResult.ok
          (dbGet (dbUpdate s id (jsTrim t) (jsTrim c) now).1 id),
         (dbUpdate s id (jsTrim t) (jsTrim c) now).1) := by
      unfold handleUpdatePost
      simp only [Option.getD_some, hcond, Bool.false_eq_true, if_false,
        hzb]
    have hgot : dbGet (dbUpdate s id (jsTrim t) (jsTrim c) now).1 id =
        some ({ r₀ with title := jsTrim t, content := jsTrim c, updated_at := now }) := by
      rw [dbGet_dbUpdate, hget]
      simp [hpred', hid]
    refine ⟨({ r₀ with title := jsTrim t, content := jsTrim c, updated_at := now }),
      ?_, rfl, rfl, rfl, rfl, rfl, ?_, ?_, ?_, ?_⟩
    · rw [hres, hgot]
    · rw [hres]
      rfl
    · rw [hres]
      exact dbUpdate_rows_length s id (jsTrim t) (jsTrim c) now
    · rw [hres]
      exact dbUpdate_filter_ne s id (jsTrim t) (jsTrim c) now
    · rw [hres]
  · intro s id body now hcond hget
    have hno := (dbGet_none_iff s id).mp hget
    have hz : (dbUpdate s id (jsTrim (body.title.getD ""))
        (jsTrim (body.content.getD "")) now).2 = 0 :=
      (dbUpdate_changes_zero s id _ _ now).mpr hno
    have hs : (dbUpdate s id (jsTrim (body.title.getD ""))
        (jsTrim (body.content.getD "")) now).1 = s :=
      dbUpdate_no_match s id _ _ now hno
    unfold handleUpdatePost
    simp only [hcond, Bool.false_eq_true, if_false, hz, beq_self_eq_true,
      if_true, hs]

/-- C5 witness: updating the single row of a one-row store. -/
theorem C5_update_frame_witness :
    dbGet (handleCreatePost emptyStore
        ⟨some "abc", some "0123456789"⟩ 0).2 1 =
      some { id := 1, title := "abc", content := "0123456789",
             created_at := 0, updated_at := 0 } ∧
    jsTrim "xyz" ≠ "" ∧ jsTrim "new content!" ≠ "" ∧
    ∃ r',
      (handleUpdatePost (handleCreatePost emptyStore
          ⟨some "abc", some "0123456789"⟩ 0).2
        (some 1) ⟨some "xyz", some "new content!"⟩ 7).1 =
        UpdateResult.ok (some r') ∧
      r'.id = 1 ∧ r'.created_at = 0 ∧
      r'.title = jsTrim "xyz" ∧ r'.content = jsTrim "new content!" ∧
      r'.updated_at = 7 := by
  refine ⟨by decide, by decide, by decide, ?_⟩
  obtain ⟨r', h1, h2, h3, h4, h5, h6, -⟩ :=
    C5_update_frame.1 (handleCreatePost emptyStore
        ⟨some "abc", some "0123456789"⟩ 0).2
      1 "xyz" "new content!" 7
      { id := 1, title := "abc", content := "0123456789",
        created_at := 0, updated_at := 0 }
      (by decide) (by decide) (by decide)
  exact ⟨r', h1, h2, h3, h4, h5, h6⟩

/-! ## Claim C6 -/

theorem handleCreatePost_created_id (s : Store) (body : PostData)
    (now : Nat) (r : Row)
    (h : (handleCreatePost s body now).1 = CreateResult.created (some r)) :
    r.id = s.nextId := by
  unfold handleCreatePost at h
  split at h
  · exact absurd h (by simp)
  · simp only [CreateResult.created.injEq] at h
    have hfind : (dbInsert s (jsTrim (body.title.getD ""))
        (jsTrim (body.content.getD "")) now).1.rows.find?
        (fun row : Row => row.id ==
          (dbInsert s (jsTrim (body.title.getD ""))
            (jsTrim (body.content.getD "")) now).2) = some r := h
    have hp := List.find?_some hfind
    have hid : r.id = (dbInsert s (jsTrim (body.title.getD ""))
        (jsTrim (body.content.getD "")) now).2 := by simpa using hp
    exact hid

/-- C6: after a successful delete of id X, a get on X is NotFound, the
list contains no post with id X, and no later create (after any further
sequence of requests) ever returns a post with id X: the AUTOINCREMENT
counter is untouched by deletion and only grows. -/
theorem C6_delete_finality :
    ∀ (s : Store) (X : Int),
      (∀ r ∈ s.rows, r.id < s.nextId) →
      (handleDeletePost s (some X)).1 = DeleteResult.success →
      handleGetPost (handleDeletePost s (some X)).2 (some X) =
        GetResult.notFound ∧
      (∀ r ∈ handleListPosts (handleDeletePost s (some X)).2, r.id ≠ X) ∧
      (∀ (ops : List Op) (body : PostData) (now : Nat) (r : Row),
        (handleCreatePost
            (applyOps (handleDeletePost s (some X)).2 ops) body now).1 =
          CreateResult.created (some r) →
        r.id ≠ X) := by
  intro s X hb hsuc
  have hzb : ((dbDelete s X).2 == 0) = false := by
    by_cases hz : ((dbDelete s X).2 == 0) = true
    · exfalso
      unfold handleDeletePost at hsuc
      dsimp only at hsuc
      rw [if_pos hz] at hsuc
      exact absurd hsuc (by simp)
    · simpa using hz
  have hres : handleDeletePost s (some X) =
      (DeleteResult.success, (dbDelete s X).1) := by
    unfold handleDeletePost
    dsimp only
    rw [if_neg (by simp [hzb])]
  have hchanged : (dbDelete s X).2 ≠ 0 := by simpa using hzb
  have hex : ¬(∀ r ∈ s.rows, r.id ≠ X) := fun hall =>
    hchanged ((dbDelete_changes_zero s X).mpr hall)
  obtain ⟨r, hr, hrX⟩ : ∃ r ∈ s.rows, r.id = X := by
    push_neg at hex
    exact hex
  have hX_lt : X < s.nextId := hrX ▸ hb r hr
  refine ⟨?_, ?_, ?_⟩
  · rw [hres]
    show handleGetPost (dbDelete s X).1 (some X) = GetResult.notFound
    simp [handleGetPost, dbGet_dbDelete]
  · intro r' hr'
    rw [hres] at hr'
    have hmem : r' ∈ (dbDelete s X).1.rows :=
      (sortByIdDesc_perm _).mem_iff.mp hr'
    exact ((mem_dbDelete s X r').mp hmem).2
  · intro ops body now r' hcr
    have hid := handleCreatePost_created_id _ body now r' hcr
    have hstep : (handleDeletePost s (some X)).2.nextId = s.nextId := by
      rw [hres]
      rfl
    have h2 : s.nextId ≤
        (applyOps (handleDeletePost s (some X)).2 ops).nextId := by
      rw [← hstep]
      exact nextId_applyOps ops _
    intro he
    have hXeq : X = (applyOps (handleDeletePost s (some X)).2 ops).nextId :=
      he.symm.trans hid
    rw [← hXeq] at h2
    exact absurd (lt_of_lt_of_le hX_lt h2) (lt_irrefl X)

/-- C6 witness: create id 1, delete it; get is NotFound and the next
create returns id 2, not 1. -/
theorem C6_delete_finality_witness :
    (∀ r ∈ (handleCreatePost emptyStore
        ⟨some "abc", some "0123456789"⟩ 0).2.rows,
      r.id < (handleCreatePost emptyStore
        ⟨some "abc", some "0123456789"⟩ 0).2.nextId) ∧
    (handleDeletePost (handleCreatePost emptyStore
        ⟨some "abc", some "0123456789"⟩ 0).2 (some 1)).1 =
      DeleteResult.success ∧
    handleGetPost (handleDeletePost (handleCreatePost emptyStore
        ⟨some "abc", some "0123456789"⟩ 0).2 (some 1)).2 (some 1) =
      GetResult.notFound ∧
    (handleCreatePost (applyOps (handleDeletePost (handleCreatePost
        emptyStore ⟨some "abc", some "0123456789"⟩ 0).2 (some 1)).2 [])
        ⟨some "xyz", some "abcdefghij"⟩ 5).1 =
      CreateResult.created (some ⟨2, "xyz", "abcdefghij", 5, 5⟩) ∧
    (⟨2, "xyz", "abcdefghij", 5, 5⟩ : Row).id ≠ 1 := by
  refine ⟨by decide, by decide, ?_, by decide, ?_⟩
  · exact (C6_delete_finality (handleCreatePost emptyStore
      ⟨some "abc", some "0123456789"⟩ 0).2 1 (by decide) (by decide)).1
  · exact (C6_delete_finality (handleCreatePost emptyStore
      ⟨some "abc", some "0123456789"⟩ 0).2 1 (by decide) (by decide)).2.2
      [] ⟨some "xyz", some "abcdefghij"⟩ 5 ⟨2, "xyz", "abcdefghij", 5, 5⟩
      (by decide)

/-! ## Claim C7 -/

theorem handleCreatePost_valid (s : Store) (t c : String) (now : Nat)
    (hb : ∀ r ∈ s.rows, r.id < s.nextId)
    (ht : jsTrim t ≠ "") (hc : jsTrim c ≠ "") :
    handleCreatePost s ⟨some t, some c⟩ now =
      (CreateResult.created (some { id := s.nextId, title := jsTrim t, content := jsTrim c, created_at := now, updated_at := now }),
       (dbInsert s (jsTrim t) (jsTrim c) now).1) := by
  have hmt : serverFieldMissing (some t) = false := by
    simp only [serverFieldMissing, beq_eq_false_iff_ne, ne_eq]
    exact ht
  have hmc : serverFieldMissing (some c) = false := by
    simp only [serverFieldMissing, beq_eq_false_iff_ne, ne_eq]
    exact hc
  have hcond : (serverFieldMissing (some t) ||
      serverFieldMissing (some c)) = false := by
    rw [hmt, hmc]
    rfl
  unfold handleCreatePost
  rw [hcond]
  simp only [Bool.false_eq_true, if_false, Option.getD_some]
  rw [show dbGet (dbInsert s (jsTrim t) (jsTrim c) now).1
      (dbInsert s (jsTrim t) (jsTrim c) now).2 = _ from
    dbGet_insert s (jsTrim t) (jsTrim c) now hb]

theorem handleUpdatePost_found (s : Store) (id : Int) (t c : String)
    (now : Nat) (r₀ : Row) (hget : dbGet s id = some r₀)
    (ht : jsTrim t ≠ "") (hc : jsTrim c ≠ "") :
    handleUpdatePost s (some id) ⟨some t, some c⟩ now =
      (UpdateResult.ok (some ({ r₀ with title := jsTrim t, content := jsTrim c, updated_at := now })),
       (dbUpdate s id (jsTrim t) (jsTrim c) now).1) := by
  have hfind : s.rows.find? (fun r : Row => r.id == id) = some r₀ := hget
  have hmem : r₀ ∈ s.rows := List.mem_of_find?_eq_some hfind
  have hpred := List.find?_some hfind
  have hid : r₀.id = id := by simpa using hpred
  have hpred' : (r₀.id == id) = true := by simpa using hpred
  have hmt : serverFieldMissing (some t) = false := by
    simp only [serverFieldMissing, beq_eq_false_iff_ne, ne_eq]
    exact ht
  have hmc : serverFieldMissing (some c) = false := by
    simp only [serverFieldMissing, beq_eq_false_iff_ne, ne_eq]
    exact hc
  have hcond : (serverFieldMissing (some t) ||
      serverFieldMissing (some c)) = false := by
    rw [hmt, hmc]
    rfl
  have hz : ¬((dbUpdate s id (jsTrim t) (jsTrim c) now).2 = 0) := by
    rw [dbUpdate_changes_zero]
    intro hall
    exact hall r₀ hmem hid
  have hzb : ((dbUpdate s id (jsTrim t) (jsTrim c) now).2 == 0) = false :=
    by simpa using hz
  have hgot : dbGet (dbUpdate s id (jsTrim t) (jsTrim c) now).1 id =
      some ({ r₀ with title := jsTrim t, content := jsTrim c, updated_at := now }) := by
    rw [dbGet_dbUpdate, hget]
    simp [hpred', hid]
  unfold handleUpdatePost
  simp only [Option.getD_some, hcond, Bool.false_eq_true, if_false, hzb,
    hgot]

theorem timeWF_handleCreatePost (s : Store) (body : PostData)
    (clk now : Nat) (h : TimeWF s clk) (hle : clk ≤ now) :
    TimeWF (handleCreatePost s body now).2 now := by
  unfold handleCreatePost
  split
  · intro r hr
    exact ⟨(h r hr).1, le_trans (h r hr).2 hle⟩
  · intro r hr
    have hr' : r ∈ s.rows ++ [({ id := s.nextId, title := jsTrim (body.title.getD ""), content := jsTrim (body.content.getD ""), created_at := now, updated_at := now } : Row)] := hr
    rcases List.mem_append.mp hr' with hm | hm
    · exact ⟨(h r hm).1, le_trans (h r hm).2 hle⟩
    · rw [List.mem_singleton.mp hm]
      exact ⟨le_refl _, le_refl _⟩

theorem timeWF_handleUpdatePost (s : Store) (idp : ParsedId)
    (body : PostData) (clk now : Nat) (h : TimeWF s clk) (hle : clk ≤ now) :
    TimeWF (handleUpdatePost s idp body now).2 now := by
  have hup : TimeWF (dbUpdate s (idp.getD 0) (jsTrim (body.title.getD ""))
      (jsTrim (body.content.getD "")) now).1 now := by
    intro r hr
    have hr' : r ∈ s.rows.map (fun r : Row =>
        if r.id == idp.getD 0 then
          { r with title := jsTrim (body.title.getD ""), content := jsTrim (body.content.getD ""), updated_at := now }
        else r) := hr
    rcases List.mem_map.mp hr' with ⟨a, ha, rfl⟩
    by_cases hcase : (a.id == idp.getD 0) = true
    · rw [if_pos hcase]
      exact ⟨le_trans (h a ha).1 (le_trans (h a ha).2 hle), le_refl _⟩
    · rw [if_neg hcase]
      exact ⟨(h a ha).1, le_trans (h a ha).2 hle⟩
  rcases idp with _ | id
  · intro r hr
    exact ⟨(h r hr).1, le_trans (h r hr).2 hle⟩
  · show TimeWF (if serverFieldMissing body.title ||
        serverFieldMissing body.content then (UpdateResult.badRequest, s)
      else
        let p := dbUpdate s id (jsTrim (body.title.getD ""))
                              (jsTrim (body.content.getD "")) now
        if p.2 == 0 then (UpdateResult.notFound, p.1)
        else (UpdateResult.ok (dbGet p.1 id), p.1)).2 now
    split
    · intro r hr
      exact ⟨(h r hr).1, le_trans (h r hr).2 hle⟩
    · dsimp only
      split
      · exact hup
      · exact hup

theorem timeWF_handleDeletePost (s : Store) (idp : ParsedId) (clk : Nat)
    (h : TimeWF s clk) : TimeWF (handleDeletePost s idp).2 clk := by
  rcases idp with _ | id
  · exact h
  · show TimeWF (let p := dbDelete s id
      if p.2 == 0 then (DeleteResult.notFound, p.1)
      else (DeleteResult.success, p.1)).2 clk
    dsimp only
    have hdel : TimeWF (dbDelete s id).1 clk := by
      intro r hr
      exact h r (List.mem_filter.mp hr).1
    split
    · exact hdel
    · exact hdel

theorem timeWF_applyOps :
    ∀ (ops : List Op) (clk : Nat) (s : Store), TimeWF s clk →
      Chron clk ops → TimeWF (applyOps s ops) (endClk clk ops) := by
  intro ops
  induction ops with
  | nil =>
    intro clk s h _
    exact h
  | cons op ops ih =>
    intro clk s h hch
    cases op with
    | create body now =>
      obtain ⟨hle, hch'⟩ := hch
      exact ih now _ (timeWF_handleCreatePost s body clk now h hle) hch'
    | update idp body now =>
      obtain ⟨hle, hch'⟩ := hch
      exact ih now _ (timeWF_handleUpdatePost s idp body clk now h hle)
        hch'
    | delete idp =>
      exact ih clk _ (timeWF_handleDeletePost s idp clk h) hch

/-- C7: immediately after create the new row has `updated_at =
created_at`; a successful update at a time not before the row's creation
keeps `created_at` and yields `updated_at ≥ created_at`; and along any
request trace whose clock never goes backwards, every post visible
through List satisfies `updated_at ≥ created_at`. -/
theorem C7_timestamps :
    (∀ (s : Store) (t c : String) (now : Nat),
      (∀ r ∈ s.rows, r.id < s.nextId) →
      jsTrim t ≠ "" → jsTrim c ≠ "" →
      ∃ row,
        (handleCreatePost s ⟨some t, some c⟩ now).1 =
          CreateResult.created (some row) ∧
        row.updated_at = row.created_at) ∧
    (∀ (s : Store) (id : Int) (t c : String) (now : Nat) (r₀ : Row),
      dbGet s id = some r₀ → jsTrim t ≠ "" → jsTrim c ≠ "" →
      r₀.created_at ≤ now →
      ∃ r',
        (handleUpdatePost s (some id) ⟨some t, some c⟩ now).1 =
          UpdateResult.ok (some r') ∧
        r'.created_at = r₀.created_at ∧
        r'.created_at ≤ r'.updated_at) ∧
    (∀ ops : List Op, Chron 0 ops →
      ∀ r ∈ handleListPosts (applyOps emptyStore ops),
        r.created_at ≤ r.updated_at) := by
  refine ⟨?_, ?_, ?_⟩
  · intro s t c now hb ht hc
    refine ⟨{ id := s.nextId, title := jsTrim t, content := jsTrim c, created_at := now, updated_at := now }, ?_, rfl⟩
    rw [handleCreatePost_valid s t c now hb ht hc]
  · intro s id t c now r₀ hget ht hc hle
    refine ⟨{ r₀ with title := jsTrim t, content := jsTrim c, updated_at := now }, ?_, rfl, hle⟩
    rw [handleUpdatePost_found s id t c now r₀ hget ht hc]
  · intro ops hch r hr
    have hempty : TimeWF emptyStore 0 := by
      intro r hr
      simp [emptyStore] at hr
    have hwf := timeWF_applyOps ops 0 emptyStore hempty hch
    have hmem : r ∈ (applyOps emptyStore ops).rows :=
      (sortByIdDesc_perm _).mem_iff.mp hr
    exact (hwf r hmem).1

/-- C7 witness: a concrete create (timestamps equal), a concrete update
(created_at kept, updated_at ≥ created_at), and a concrete chronological
trace. -/
theorem C7_timestamps_witness :
    (∃ row,
      (handleCreatePost emptyStore ⟨some "abc", some "0123456789"⟩ 5).1 =
        CreateResult.created (some row) ∧
      row.updated_at = row.created_at) ∧
    (∃ r',
      (handleUpdatePost (handleCreatePost emptyStore
          ⟨some "abc", some "0123456789"⟩ 5).2
        (some 1) ⟨some "xyz", some "abcdefghij"⟩ 9).1 =
        UpdateResult.ok (some r') ∧
      r'.created_at = 5 ∧ r'.created_at ≤ r'.updated_at) ∧
    Chron 0 [Op.create ⟨some "abc", some "0123456789"⟩ 1,
             Op.update (some 1) ⟨some "xyz", some "abcdefghij"⟩ 2] ∧
    (∀ r ∈ handleListPosts (applyOps emptyStore
        [Op.create ⟨some "abc", some "0123456789"⟩ 1,
         Op.update (some 1) ⟨some "xyz", some "abcdefghij"⟩ 2]),
      r.created_at ≤ r.updated_at) := by
  have hch : Chron 0 [Op.create ⟨some "abc", some "0123456789"⟩ 1,
      Op.update (some 1) ⟨some "xyz", some "abcdefghij"⟩ 2] :=
    ⟨by decide, by decide, trivial⟩
  refine ⟨?_, ?_, hch, ?_⟩
  · exact C7_timestamps.1 emptyStore "abc" "0123456789" 5
      (fun r hr => absurd hr (List.not_mem_nil r)) (by decide) (by decide)
  · exact C7_timestamps.2.1 (handleCreatePost emptyStore
        ⟨some "abc", some "0123456789"⟩ 5).2 1 "xyz" "abcdefghij" 9
      ⟨1, "abc", "0123456789", 5, 5⟩ (by decide) (by decide) (by decide)
      (by decide)
  · exact C7_timestamps.2.2 _ hch

/-! ## Claim C8 -/

theorem set_at_split (pre : List Row) (q : Row) (post_ : List Row)
    (p : Row) : (pre ++ q :: post_).set pre.length p = pre ++ p :: post_
    := by
  induction pre with
  | nil => rfl
  | cons x pre ih =>
    show (x :: (pre ++ q :: post_)).set (pre.length + 1) p = _
    rw [List.set_cons_succ, ih]
    rfl

theorem replaceFirstById_split (pre : List Row) (q : Row) (post_ : List Row)
    (id : Int) (p : Row) (hpre : ∀ x ∈ pre, x.id ≠ id) (hq : q.id = id) :
    replaceFirstById (pre ++ q :: post_) id p = pre ++ p :: post_ := by
  have hnone : pre.findIdx? (fun r : Row => r.id == id) = none := by
    rw [List.findIdx?_eq_none_iff]
    intro x hx
    simpa using hpre x hx
  have hcons : (q :: post_).findIdx? (fun r : Row => r.id == id) = some 0 :=
    by rw [List.findIdx?_cons, if_pos (by simpa using hq)]
  have hidx : (pre ++ q :: post_).findIdx? (fun r : Row => r.id == id) =
      some pre.length := by
    rw [List.findIdx?_append, hnone, hcons]
    simp
  unfold replaceFirstById
  rw [hidx]
  exact set_at_split pre q post_ p

/-- C8: on a successful mutation the cache and event stream change
exactly as specified: create prepends the server row and emits
`onPostCreated`; update splice-replaces the first cached row with the
matching id in place (leaving everything else untouched) and emits
`onPostUpdated`; delete removes every cached row with the matching id and
emits `onPostDeleted` with the numeric id. -/
theorem C8_cache_mutations :
    (∀ (st : ClientState) (pd : PostData) (p : Row),
      validatePostData pd = [] →
      clientCreatePost st pd (Fetch.ok p) =
        ({ posts := p :: st.posts, isLoading := false },
         [ClientEvent.loadingChange true, ClientEvent.postCreated p,
          ClientEvent.loadingChange false],
         Except.ok p)) ∧
    (∀ (st : ClientState) (id : Int) (pd : PostData) (p : Row),
      validatePostData pd = [] →
      clientUpdatePost st (some id) pd (Fetch.ok p) =
        ({ posts := replaceFirstById st.posts id p, isLoading := false },
         [ClientEvent.loadingChange true, ClientEvent.postUpdated p,
          ClientEvent.loadingChange false],
         Except.ok p)) ∧
    (∀ (id : Int) (p : Row) (pre post_ : List Row) (q : Row),
      (∀ x ∈ pre, x.id ≠ id) → q.id = id →
      replaceFirstById (pre ++ q :: post_) id p = pre ++ p :: post_) ∧
    (∀ (st : ClientState) (id : Int),
      clientDeletePost st (some id) DeleteFetch.ok =
        ({ posts := st.posts.filter (fun q => !(q.id == id)),
           isLoading := false },
         [ClientEvent.loadingChange true, ClientEvent.postDeleted id,
          ClientEvent.loadingChange false],
         Except.ok true)) ∧
    (∀ (posts : List Row) (id : Int) (q : Row),
      q ∈ posts.filter (fun r => !(r.id == id)) ↔
        q ∈ posts ∧ q.id ≠ id) := by
  refine ⟨?_, ?_, ?_, ?_, ?_⟩
  · intro st pd p hv
    simp [clientCreatePost, hv]
  · intro st id pd p hv
    simp [clientUpdatePost, hv]
  · intro id p pre post_ q hpre hq
    exact replaceFirstById_split pre q post_ id p hpre hq
  · intro st id
    rfl
  · intro posts id q
    rw [List.mem_filter]
    constructor
    · intro ⟨h1, h2⟩
      exact ⟨h1, by simpa using h2⟩
    · intro ⟨h1, h2⟩
      exact ⟨h1, by simpa using h2⟩

/-- C8 witness: a concrete create, an in-place update of the row with
id 1 in a two-row cache, and a delete of id 1. -/
theorem C8_cache_mutations_witness :
    validatePostData ⟨some "abc", some "0123456789"⟩ = [] ∧
    clientCreatePost ⟨[], false⟩ ⟨some "abc", some "0123456789"⟩
        (Fetch.ok ⟨1, "abc", "0123456789", 0, 0⟩) =
      ({ posts := [⟨1, "abc", "0123456789", 0, 0⟩], isLoading := false },
       [ClientEvent.loadingChange true,
        ClientEvent.postCreated ⟨1, "abc", "0123456789", 0, 0⟩,
        ClientEvent.loadingChange false],
       Except.ok ⟨1, "abc", "0123456789", 0, 0⟩) ∧
    clientUpdatePost
        ⟨[⟨2, "b", "c", 0, 0⟩, ⟨1, "abc", "0123456789", 0, 0⟩], false⟩
        (some 1) ⟨some "abc", some "0123456789"⟩
        (Fetch.ok ⟨1, "new", "new content!", 0, 3⟩) =
      ({ posts := replaceFirstById
          [⟨2, "b", "c", 0, 0⟩, ⟨1, "abc", "0123456789", 0, 0⟩] 1
          ⟨1, "new", "new content!", 0, 3⟩, isLoading := false },
       [ClientEvent.loadingChange true,
        ClientEvent.postUpdated ⟨1, "new", "new content!", 0, 3⟩,
        ClientEvent.loadingChange false],
       Except.ok ⟨1, "new", "new content!", 0, 3⟩) ∧
    replaceFirstById
        ([⟨2, "b", "c", 0, 0⟩] ++ ⟨1, "abc", "0123456789", 0, 0⟩ :: [])
        1 ⟨1, "new", "new content!", 0, 3⟩ =
      [⟨2, "b", "c", 0, 0⟩] ++ ⟨1, "new", "new content!", 0, 3⟩ :: [] ∧
    clientDeletePost
        ⟨[⟨2, "b", "c", 0, 0⟩, ⟨1, "abc", "0123456789", 0, 0⟩], false⟩
        (some 1) DeleteFetch.ok =
      ({ posts := [⟨2, "b", "c", 0, 0⟩,
          ⟨1, "abc", "0123456789", 0, 0⟩].filter
            (fun q => !(q.id == 1)), isLoading := false },
       [ClientEvent.loadingChange true, ClientEvent.postDeleted 1,
        ClientEvent.loadingChange false],
       Except.ok true) := by
  refine ⟨by decide, ?_, ?_, ?_, ?_⟩
  · exact C8_cache_mutations.1 ⟨[], false⟩ ⟨some "abc", some "0123456789"⟩
      ⟨1, "abc", "0123456789", 0, 0⟩ (by decide)
  · exact C8_cache_mutations.2.1
      ⟨[⟨2, "b", "c", 0, 0⟩, ⟨1, "abc", "0123456789", 0, 0⟩], false⟩ 1
      ⟨some "abc", some "0123456789"⟩ ⟨1, "new", "new content!", 0, 3⟩
      (by decide)
  · exact C8_cache_mutations.2.2.1 1 ⟨1, "new", "new content!", 0, 3⟩
      [⟨2, "b", "c", 0, 0⟩] [] ⟨1, "abc", "0123456789", 0, 0⟩
      (by decide) (by decide)
  · exact C8_cache_mutations.2.2.2.1
      ⟨[⟨2, "b", "c", 0, 0⟩, ⟨1, "abc", "0123456789", 0, 0⟩], false⟩ 1

/-! ## Claim C9 -/

/-- C9 counterexample: a successful createPost emits no loading-start
event (`onLoadingStart`); only loadPosts does. The claim that every CRUD
operation begins by emitting loading-start is false for create (and
likewise update/delete). -/
theorem C9_counterexample :
    ClientEvent.loadingStart ∉
      (clientCreatePost ⟨[], false⟩ ⟨some "abc", some "0123456789"⟩
        (Fetch.ok ⟨1, "abc", "0123456789", 0, 0⟩)).2.1 := by
  decide

/-- C9 (amended): every operation first sets the loading flag to true —
emitting the loading-change event with true as its first event — and on
completion (success or failure) resets the flag to false and emits the
loading-change event with false; the loading-start and loading-end
events are emitted by the load operation only. -/
theorem C9_loading_protocol :
    (∀ (st : ClientState) (resp : Fetch (List Row)),
      (clientLoadPosts st resp).2.1.head? =
        some (ClientEvent.loadingChange true) ∧
      ClientEvent.loadingStart ∈ (clientLoadPosts st resp).2.1 ∧
      ClientEvent.loadingChange false ∈ (clientLoadPosts st resp).2.1 ∧
      ClientEvent.loadingEnd ∈ (clientLoadPosts st resp).2.1 ∧
      (clientLoadPosts st resp).1.isLoading = false) ∧
    (∀ (st : ClientState) (pd : PostData) (resp : Fetch Row),
      (clientCreatePost st pd resp).2.1.head? =
        some (ClientEvent.loadingChange true) ∧
      ClientEvent.loadingChange false ∈ (clientCreatePost st pd resp).2.1 ∧
      ClientEvent.loadingStart ∉ (clientCreatePost st pd resp).2.1 ∧
      ClientEvent.loadingEnd ∉ (clientCreatePost st pd resp).2.1 ∧
      (clientCreatePost st pd resp).1.isLoading = false) ∧
    (∀ (st : ClientState) (idp : ParsedId) (pd : PostData)
        (resp : Fetch Row),
      (clientUpdatePost st idp pd resp).2.1.head? =
        some (ClientEvent.loadingChange true) ∧
      ClientEvent.loadingChange false ∈
        (clientUpdatePost st idp pd resp).2.1 ∧
      ClientEvent.loadingStart ∉ (clientUpdatePost st idp pd resp).2.1 ∧
      ClientEvent.loadingEnd ∉ (clientUpdatePost st idp pd resp).2.1 ∧
      (clientUpdatePost st idp pd resp).1.isLoading = false) ∧
    (∀ (st : ClientState) (idp : ParsedId) (resp : DeleteFetch),
      (clientDeletePost st idp resp).2.1.head? =
        some (ClientEvent.loadingChange true) ∧
      ClientEvent.loadingChange false ∈
        (clientDeletePost st idp resp).2.1 ∧
      ClientEvent.loadingStart ∉ (clientDeletePost st idp resp).2.1 ∧
      ClientEvent.loadingEnd ∉ (clientDeletePost st idp resp).2.1 ∧
      (clientDeletePost st idp resp).1.isLoading = false) := by
  refine ⟨?_, ?_, ?_, ?_⟩
  · intro st resp
    cases resp <;> simp [clientLoadPosts]
  · intro st pd resp
    by_cases he : (validatePostData pd).isEmpty = true
    · cases resp <;> simp [clientCreatePost, he]
    · have he' : (validatePostData pd).isEmpty = false := by
        simpa using he
      cases resp <;> simp [clientCreatePost, he']
  · intro st idp pd resp
    rcases idp with _ | id
    · simp [clientUpdatePost]
    · by_cases he : (validatePostData pd).isEmpty = true
      · cases resp <;> simp [clientUpdatePost, he]
      · have he' : (validatePostData pd).isEmpty = false := by
          simpa using he
        cases resp <;> simp [clientUpdatePost, he']
  · intro st idp resp
    rcases idp with _ | id
    · simp [clientDeletePost]
    · cases resp with
      | ok => simp [clientDeletePost]
      | httpError status body =>
        by_cases h204 : (status == 204) = true
        · simp [clientDeletePost, h204]
        · have h204' : (status == 204) = false := by simpa using h204
          simp [clientDeletePost, h204']

/-! ## Claim C10 -/

/-- C10: a successful update or delete round trip whose id matches no
cached post still returns normally and emits its success event; the
update leaves the cached sequence unchanged and the delete is a no-op on
it — cache membership is never a precondition. -/
theorem C10_absent_id_mutations :
    (∀ (st : ClientState) (id : Int) (pd : PostData) (p : Row),
      validatePostData pd = [] →
      (∀ q ∈ st.posts, q.id ≠ id) →
      (clientUpdatePost st (some id) pd (Fetch.ok p)).1.posts = st.posts ∧
      (clientUpdatePost st (some id) pd (Fetch.ok p)).2.2 = Except.ok p ∧
      ClientEvent.postUpdated p ∈
        (clientUpdatePost st (some id) pd (Fetch.ok p)).2.1) ∧
    (∀ (st : ClientState) (id : Int),
      (∀ q ∈ st.posts, q.id ≠ id) →
      (clientDeletePost st (some id) DeleteFetch.ok).1.posts = st.posts ∧
      (clientDeletePost st (some id) DeleteFetch.ok).2.2 =
        Except.ok true ∧
      ClientEvent.postDeleted id ∈
        (clientDeletePost st (some id) DeleteFetch.ok).2.1) := by
  constructor
  · intro st id pd p hv hno
    have hnone : st.posts.findIdx? (fun q : Row => q.id == id) = none := by
      rw [List.findIdx?_eq_none_iff]
      intro x hx
      simpa using hno x hx
    have hrep : replaceFirstById st.posts id p = st.posts := by
      unfold replaceFirstById
      rw [hnone]
    refine ⟨?_, ?_, ?_⟩
    · simp [clientUpdatePost, hv, hrep]
    · simp [clientUpdatePost, hv]
    · simp [clientUpdatePost, hv]
  · intro st id hno
    have hfil : st.posts.filter (fun q => !(q.id == id)) = st.posts := by
      rw [List.filter_eq_self]
      intro a ha
      simpa using hno a ha
    refine ⟨?_, ?_, ?_⟩
    · show (st.posts.filter (fun q => !(q.id == id))) = st.posts
      exact hfil
    · rfl
    · show ClientEvent.postDeleted id ∈
        [ClientEvent.loadingChange true, ClientEvent.postDeleted id,
         ClientEvent.loadingChange false]
      simp

/-- C10 witness: update and delete with id 9 against a cache holding only
id 2. -/
theorem C10_absent_id_mutations_witness :
    validatePostData ⟨some "abc", some "0123456789"⟩ = [] ∧
    (∀ q ∈ ([⟨2, "b", "c", 0, 0⟩] : List Row), q.id ≠ 9) ∧
    (clientUpdatePost ⟨[⟨2, "b", "c", 0, 0⟩], false⟩ (some 9)
        ⟨some "abc", some "0123456789"⟩
        (Fetch.ok ⟨9, "abc", "0123456789", 0, 0⟩)).1.posts =
      [⟨2, "b", "c", 0, 0⟩] ∧
    (clientUpdatePost ⟨[⟨2, "b", "c", 0, 0⟩], false⟩ (some 9)
        ⟨some "abc", some "0123456789"⟩
        (Fetch.ok ⟨9, "abc", "0123456789", 0, 0⟩)).2.2 =
      Except.ok ⟨9, "abc", "0123456789", 0, 0⟩ ∧
    (clientDeletePost ⟨[⟨2, "b", "c", 0, 0⟩], false⟩ (some 9)
        DeleteFetch.ok).1.posts = [⟨2, "b", "c", 0, 0⟩] ∧
    (clientDeletePost ⟨[⟨2, "b", "c", 0, 0⟩], false⟩ (some 9)
        DeleteFetch.ok).2.2 = Except.ok true := by
  have hu := C10_absent_id_mutations.1 ⟨[⟨2, "b", "c", 0, 0⟩], false⟩ 9
    ⟨some "abc", some "0123456789"⟩ ⟨9, "abc", "0123456789", 0, 0⟩
    (by decide) (by decide)
  have hd := C10_absent_id_mutations.2 ⟨[⟨2, "b", "c", 0, 0⟩], false⟩ 9
    (by decide)
  exact ⟨by decide, by decide, hu.1, hu.2.1, hd.1, hd.2.1⟩
